import Mathlib

/-!
Verification of the OpenShot timeline webview glue layer
(`src/windows/views/timeline_webview.py`).

The numeric logic of the file (keyframe timing for fades and rotations, the
grid layout of `show_all_clips`, the playhead / wheel-event handlers and the
JSON diff dispatch of `changed`) is embedded shallowly below.  Python floats
are modelled as exact rationals (`ℚ`); Python dicts holding clip or
transition JSON are modelled either as Lean structures (when a claim is
about field values) or as association lists (when a claim is about the key
set); fallible dictionary access is modelled with `Option`.
-/

namespace Timeline

/-! ### Constants from the top of the file -/

def MENU_FADE_NONE : ℕ := 0
def MENU_FADE_IN_FAST : ℕ := 1
def MENU_FADE_IN_SLOW : ℕ := 2
def MENU_FADE_OUT_FAST : ℕ := 3
def MENU_FADE_OUT_SLOW : ℕ := 4
def MENU_FADE_IN_OUT_FAST : ℕ := 5
def MENU_FADE_IN_OUT_SLOW : ℕ := 6

def MENU_ROTATE_NONE : ℕ := 0
def MENU_ROTATE_90_RIGHT : ℕ := 1
def MENU_ROTATE_90_LEFT : ℕ := 2
def MENU_ROTATE_180_FLIP : ℕ := 3

/-- `JS_SCOPE_SELECTOR = "$('body').scope()"` -/
def JS_SCOPE_SELECTOR : String := "$(\x27body\x27).scope()"

/-! ### Keyframe points

`openshot.Point(x, y, openshot.BEZIER)` serialised through `Json()` yields a
dict with a `co` coordinate, optional `handle_left` / `handle_right`
coordinates and an interpolation tag.  Coordinates are `(X, Y)` pairs. -/

structure Coord where
  X : ℚ
  Y : ℚ
deriving DecidableEq

inductive Interp
  | BEZIER
  | LINEAR
  | CONSTANT
deriving DecidableEq

structure KfPoint where
  co : Coord
  handle_left : Option Coord
  handle_right : Option Coord
  interpolation : Interp
deriving DecidableEq

/-- Modelled from the spec: the result of
`json.loads(openshot.Point(x, y, openshot.BEZIER).Json())` — the external
library (libopenshot, not part of this source) attaches default bezier
handles to a freshly created point.  Only the `co` pair `(x, y)` is ever
relevant to the claims about this file. -/
def mkPoint (x y : ℚ) : KfPoint :=
  { co := ⟨x, y⟩
    handle_left := some ⟨1/2, 1⟩
    handle_right := some ⟨1/2, 1⟩
    interpolation := .BEZIER }

/-- Gravity constants of the external `openshot` module used by this file. -/
inductive Gravity
  | GRAVITY_TOP_LEFT
  | GRAVITY_TOP_RIGHT
  | GRAVITY_CENTER
  | GRAVITY_BOTTOM_LEFT
  | GRAVITY_BOTTOM_RIGHT
deriving DecidableEq

/-- Scale-mode constants of the external `openshot` module used by this file. -/
inductive ScaleMode
  | SCALE_FIT
  | SCALE_STRETCH
  | SCALE_CROP
  | SCALE_NONE
deriving DecidableEq

/-- The clip JSON fields touched by the fade / rotate / layout handlers.
`clip.data` is a dict; the claims about those handlers only concern the
fields below, so the dict is modelled as a structure. -/
structure Clip where
  id : String
  layer : ℚ
  position : ℚ
  start : ℚ
  «end» : ℚ
  gravity : Gravity
  scale : ScaleMode
  alpha : List KfPoint
  rotation : List KfPoint
  scale_x : List KfPoint
  scale_y : List KfPoint
  location_x : List KfPoint
  location_y : List KfPoint
deriving DecidableEq

/-! ### `changed` (UpdateInterface callback), lines 88-97 -/

/-- An `UpdateAction` as far as `changed` consumes it: its `type` and the
JSON string `action.json()` returns. -/
structure UpdateAction where
  type : String
  json : String
deriving DecidableEq

/-- The JavaScript code string built and evaluated by `changed`. -/
def changed (action : UpdateAction) : String :=
  if action.type = "load" then
    JS_SCOPE_SELECTOR ++ ".LoadJson(" ++ action.json ++ ");"
  else
    JS_SCOPE_SELECTOR ++ ".ApplyJsonDiff([" ++ action.json ++ "]);"

/-- A call of the JavaScript function `LoadJson` with argument `arg`. -/
def loadJsonCall (arg : String) : String :=
  JS_SCOPE_SELECTOR ++ ".LoadJson(" ++ arg ++ ");"

/-- A call of the JavaScript function `ApplyJsonDiff` with argument `arg`. -/
def applyJsonDiffCall (arg : String) : String :=
  JS_SCOPE_SELECTOR ++ ".ApplyJsonDiff(" ++ arg ++ ");"

/-! ### `PlayheadMoved`, lines 629-638 -/

/-- One step of `PlayheadMoved`: takes the stored `last_position_frames`
(`none` models the Python initialisation to `None`) and the incoming
`position_frames`; returns the new stored value together with whether
`previewFrame` was invoked. -/
def playheadMoved (last_position_frames : Option ℤ) (position_frames : ℤ) :
    Option ℤ × Bool :=
  if last_position_frames ≠ some position_frames then
    (some position_frames, true)
  else
    (last_position_frames, false)

/-! ### `wheelEvent`, lines 682-691 -/

structure WheelOutcome where
  sliderValue : ℤ
  passedToDefault : Bool
deriving DecidableEq

/-- `wheelEvent`: with Control held the zoom slider value becomes
`value - pageStep * int(angleDelta.y() / 120)` (Python `int()` on the true
division truncates toward zero, which is `Int.tdiv`); otherwise the event
goes to the default `QWebView` handler and the slider is untouched. -/
def wheelEvent (ctrlHeld : Bool) (angleDeltaY sliderValue pageStep : ℤ) :
    WheelOutcome :=
  if ctrlHeld then
    { sliderValue := sliderValue - pageStep * Int.tdiv angleDeltaY 120
      passedToDefault := false }
  else
    { sliderValue := sliderValue
      passedToDefault := true }

/-! ### `update_clip_data`, lines 101-127

Claim C6 is about the key set of the saved dict, so here the clip JSON is
an association list (first binding wins, as in a Python dict, which never
holds duplicate keys). -/

/-- Python dict lookup `d[k]`, as `Option`. -/
def dictLookup (d : List (String × α)) (k : String) : Option α :=
  (d.find? (fun p => p.1 = k)).map Prod.snd

/-- The data written by `update_clip_data`: with `only_basic_props` the dict
is replaced by one holding only the five basic keys (a `KeyError` on a
missing key is modelled by `none`); otherwise the whole input dict is
saved. -/
def update_clip_data (clip_data : List (String × α)) (only_basic_props : Bool) :
    Option (List (String × α)) :=
  if only_basic_props then
    match dictLookup clip_data "id", dictLookup clip_data "layer",
        dictLookup clip_data "position", dictLookup clip_data "start",
        dictLookup clip_data "end" with
    | some i, some l, some p, some s, some e =>
        some [("id", i), ("layer", l), ("position", p), ("start", s), ("end", e)]
    | _, _, _, _, _ => none
  else
    some clip_data

/-! ### `update_transition_data`, lines 175-213 -/

/-- The transition JSON fields this file touches. -/
structure TransitionData where
  id : String
  layer : ℚ
  position : ℚ
  start : ℚ
  «end» : ℚ
  brightness : List KfPoint
deriving DecidableEq

/-- `update_transition_data`: recomputes the brightness keyframe as the ramp
`(1, 1.0) .. (duration * fps, -1.0)`; with `only_basic_props` the saved data
holds the basic properties plus that recomputed brightness, otherwise the
input data is saved as-is (the recomputed keyframe is discarded).
`Keyframe.AddPoint` of the external library is modelled as appending to the
point list. -/
def update_transition_data (fps_float : ℚ) (transition_data : TransitionData)
    (only_basic_props : Bool) : TransitionData :=
  let duration := transition_data.«end» - transition_data.start
  let brightness := [mkPoint 1 1, mkPoint (duration * fps_float) (-1)]
  if only_basic_props then
    { transition_data with brightness := brightness }
  else
    transition_data

/-! ### `Fade_Triggered`, lines 462-518

The sequential `if` blocks of the Python are kept: `MENU_FADE_IN_OUT_FAST`
fires both the fade-in-fast and the fade-out-fast block, in that order.
The returned clip is the one handed to
`update_clip_data(clip.data, only_basic_props=False)`. -/

def Fade_Triggered (action : ℕ) (fps_float : ℚ) (clip : Clip) : Clip :=
  let end_of_clip := clip.«end» * fps_float
  let c0 :=
    if action = MENU_FADE_NONE then
      { clip with alpha := [mkPoint 1 0] }
    else clip
  let c1 :=
    if action = MENU_FADE_IN_FAST ∨ action = MENU_FADE_IN_OUT_FAST then
      { c0 with alpha := c0.alpha ++
          [mkPoint 1 1, mkPoint (min (1 * fps_float) end_of_clip) 0] }
    else c0
  let c2 :=
    if action = MENU_FADE_IN_SLOW ∨ action = MENU_FADE_IN_OUT_SLOW then
      { c1 with alpha := c1.alpha ++
          [mkPoint 1 1, mkPoint (min (3 * fps_float) end_of_clip) 0] }
    else c1
  let c3 :=
    if action = MENU_FADE_OUT_FAST ∨ action = MENU_FADE_IN_OUT_FAST then
      { c2 with alpha := c2.alpha ++
          [mkPoint (max 0 (end_of_clip - 1 * fps_float)) 0, mkPoint end_of_clip 1] }
    else c2
  if action = MENU_FADE_OUT_SLOW ∨ action = MENU_FADE_IN_OUT_SLOW then
    { c3 with alpha := c3.alpha ++
        [mkPoint (max 0 (end_of_clip - 3 * fps_float)) 0, mkPoint end_of_clip 1] }
  else c3

/-! ### `Rotate_Triggered`, lines 520-558

(The Python also computes `fps_float` and `end_of_clip`, which the function
never uses, so they are omitted here.)  The returned clip is the one handed
to `update_clip_data(clip.data, only_basic_props=False)`. -/

def Rotate_Triggered (action : ℕ) (clip : Clip) : Clip :=
  let c0 :=
    if action = MENU_ROTATE_NONE then
      { clip with rotation := [mkPoint 1 0] }
    else clip
  let c1 :=
    if action = MENU_ROTATE_90_RIGHT then
      { c0 with rotation := [mkPoint 1 90] }
    else c0
  let c2 :=
    if action = MENU_ROTATE_90_LEFT then
      { c1 with rotation := [mkPoint 1 (-90)] }
    else c1
  if action = MENU_ROTATE_180_FLIP then
    { c2 with rotation := [mkPoint 1 180] }
  else c2

/-! ### `show_all_clips`, lines 389-459 -/

/-- `number_of_rows = int(sqrt(number_of_clips))`, i.e. the floor of the
square root (Python `int()` truncates, and the argument is nonnegative). -/
def number_of_rows (number_of_clips : ℕ) : ℕ :=
  Nat.sqrt number_of_clips

/-- `max_clips_on_row`: first `float(n) / float(rows)`, then rounded up when
a fractional part remains, else truncated (lines 404-410). -/
def max_clips_on_row (number_of_clips number_of_rows : ℕ) : ℕ :=
  let mc : ℚ := (number_of_clips : ℚ) / (number_of_rows : ℚ)
  if mc > ((⌊mc⌋ : ℤ) : ℚ) then (⌊mc⌋ + 1).toNat else (⌊mc⌋ : ℤ).toNat

/-- The predicate of the collection loop (lines 396-399): clip `c` is
collected when its position is within the inclusive band of half a second
around the triggering clip's position. -/
def nearby (start_position : ℚ) (c : Clip) : Bool :=
  start_position - 1/2 ≤ c.position ∧ c.position ≤ start_position + 1/2

/-- The cells `(row, col)` visited by the nested loops of lines 419-423, in
visit order. -/
def gridCells (rows cols : ℕ) : List (ℕ × ℕ) :=
  (List.range rows).flatMap (fun row => (List.range cols).map (fun col => (row, col)))

/-- The layout update applied to the clip at one grid cell
(lines 429-450). -/
def layoutClip (stretch : Bool) (width height : ℚ) (cell : ℕ × ℕ) (c : Clip) :
    Clip :=
  { c with
    gravity := .GRAVITY_TOP_LEFT
    scale := if stretch then .SCALE_STRETCH else .SCALE_FIT
    scale_x := [mkPoint 1 width]
    scale_y := [mkPoint 1 height]
    location_x := [mkPoint 1 ((cell.2 : ℚ) * width)]
    location_y := [mkPoint 1 ((cell.1 : ℚ) * height)] }

/-- `show_all_clips`: collects the nearby clips out of `all_clips`
(`Clip.filter()`, in filter order), computes the grid, and walks the grid
cells row-major, pairing the `clip_index`-th collected clip with the
`clip_index`-th cell; the result is the list of updated clips saved through
`update_clip_data` (clips left over when the grid is exhausted are not
saved, and trailing cells with no clip left are skipped). -/
def show_all_clips (clip : Clip) (all_clips : List Clip) (stretch : Bool) :
    List Clip :=
  let start_position := clip.position
  let available_clips := all_clips.filter (nearby start_position)
  let number_of_clips := available_clips.length
  let rows := number_of_rows number_of_clips
  let cols := max_clips_on_row number_of_clips rows
  let height : ℚ := 1 / (rows : ℚ)
  let width : ℚ := 1 / (cols : ℚ)
  List.zipWith (layoutClip stretch width height) (gridCells rows cols)
    available_clips

/-! ### `Reverse_Transition_Triggered`, lines 560-578 -/

/-- Overwrite the `Y` of a coordinate, keeping `X`. -/
def setCoordY (c : Coord) (y : ℚ) : Coord :=
  { c with Y := y }

/-- One iteration of the reversal loop, seen from the written index:
`target` is the deep-copied point being written, `source` the original
point whose `Y` values are copied over.  When the source has a
`handle_left`, the Python reads `source.handle_right` and writes both
handle `Y`s of the target; any missing dict key is a `KeyError`,
modelled by `none`. -/
def reverseCombine (target source : KfPoint) : Option KfPoint :=
  match source.handle_left with
  | none => some { target with co := setCoordY target.co source.co.Y }
  | some shl =>
    match source.handle_right, target.handle_left, target.handle_right with
    | some shr, some thl, some thr =>
        some { target with
                co := setCoordY target.co source.co.Y
                handle_left := some (setCoordY thl shl.Y)
                handle_right := some (setCoordY thr shr.Y) }
    | _, _, _ => none

/-- The brightness-point reversal of `Reverse_Transition_Triggered`:
the written copy at index `j` receives the `Y` values of the original
point at index `n - 1 - j`. -/
def reverse_brightness (pts : List KfPoint) : Option (List KfPoint) :=
  (List.range pts.length).mapM (fun j =>
    match pts[j]?, pts[pts.length - 1 - j]? with
    | some target, some source => reverseCombine target source
    | _, _ => none)

/-- `Reverse_Transition_Triggered`: reverses the brightness `Y` sequence and
saves the result through `update_transition_data(..., only_basic_props=False)`
(which saves it unchanged); `none` models the Python raising a `KeyError`
before anything is saved. -/
def Reverse_Transition_Triggered (fps_float : ℚ) (tran : TransitionData) :
    Option TransitionData :=
  (reverse_brightness tran.brightness).map (fun b =>
    update_transition_data fps_float { tran with brightness := b } false)

/-! ## Helper lemmas -/

/-- The code string built for a `LoadJson` call is never the code string of
an `ApplyJsonDiff` call: the two differ right after the scope selector. -/
theorem loadJsonCall_ne_applyJsonDiffCall (s t : String) :
    loadJsonCall s ≠ applyJsonDiffCall t := by
  intro h
  have hd : (loadJsonCall s).data = (applyJsonDiffCall t).data := by rw [h]
  simp only [loadJsonCall, applyJsonDiffCall, JS_SCOPE_SELECTOR, String.data_append] at hd
  have h3 := congrArg (fun l => l[18]?) hd
  simp only [List.getElem?_append, List.length_append] at h3
  norm_num at h3
  rw [if_pos (by omega), if_pos (by omega)] at h3
  exact absurd h3 (by decide)

/-! ## Claims -/

/-- C3: for every update action delivered to `changed`, if the action's type
is `"load"` the entire project JSON is passed to the JavaScript `LoadJson`
function, otherwise the action's JSON is wrapped in a one-element list and
passed to `ApplyJsonDiff`; exactly one of the two is invoked per action. -/
theorem changed_dispatch (a : UpdateAction) :
    (a.type = "load" → changed a = loadJsonCall a.json) ∧
    (a.type ≠ "load" → changed a = applyJsonDiffCall ("[" ++ a.json ++ "]")) ∧
    ¬ ((∃ s, changed a = loadJsonCall s) ∧ (∃ t, changed a = applyJsonDiffCall t)) ∧
    ((∃ s, changed a = loadJsonCall s) ∨ (∃ t, changed a = applyJsonDiffCall t)) := by
  have hload : a.type = "load" → changed a = loadJsonCall a.json := by
    intro h
    simp [changed, h, loadJsonCall]
  have hdiff : a.type ≠ "load" → changed a = applyJsonDiffCall ("[" ++ a.json ++ "]") := by
    intro h
    rw [changed, if_neg h, applyJsonDiffCall]
    apply String.ext
    simp [List.append_assoc]
  refine ⟨hload, hdiff, ?_, ?_⟩
  · rintro ⟨⟨s, hs⟩, ⟨t, ht⟩⟩
    exact loadJsonCall_ne_applyJsonDiffCall s t (hs ▸ ht)
  · by_cases h : a.type = "load"
    · exact Or.inl ⟨a.json, hload h⟩
    · exact Or.inr ⟨"[" ++ a.json ++ "]", hdiff h⟩

/-- C3 witness: the dispatch theorem applied to a concrete load action and
a concrete non-load action. -/
theorem changed_dispatch_witness :
    changed { type := "load", json := "1" } = loadJsonCall "1" ∧
    changed { type := "update", json := "2" } = applyJsonDiffCall ("[" ++ "2" ++ "]") := by
  refine ⟨(changed_dispatch { type := "load", json := "1" }).1 rfl,
          (changed_dispatch { type := "update", json := "2" }).2.1 (by decide)⟩

/-- C10: `PlayheadMoved` invokes `previewFrame` exactly when the incoming
frame differs from the stored `last_position_frames`, stores the incoming
frame, and a second consecutive call with the same frame number never
triggers a second preview notification. -/
theorem playheadMoved_dedup (last : Option ℤ) (p : ℤ) :
    ((playheadMoved last p).2 = true ↔ last ≠ some p) ∧
    (playheadMoved last p).1 = some p ∧
    (playheadMoved (playheadMoved last p).1 p).2 = false := by
  by_cases h : last = some p <;> simp [playheadMoved, h]

/-- C7: with Control held the zoom slider decreases by
`pageStep * int(angleDelta.y() / 120)` with the quotient truncated toward
zero — one standard `120` scroll unit moves the slider by exactly one
`pageStep` (in particular `-150` yields one step up, not two); without
Control the event goes to the default `QWebView` handler and the slider is
unchanged. -/
theorem wheelEvent_zoom (y v p : ℤ) :
    (wheelEvent true y v p).sliderValue = v - p * Int.tdiv y 120 ∧
    (wheelEvent true y v p).passedToDefault = false ∧
    (wheelEvent true 120 v p).sliderValue = v - p ∧
    (wheelEvent true (-120) v p).sliderValue = v + p ∧
    (wheelEvent true (-150) v p).sliderValue = v + p ∧
    (wheelEvent false y v p).sliderValue = v ∧
    (wheelEvent false y v p).passedToDefault = true := by
  refine ⟨rfl, rfl, ?_, ?_, ?_, rfl, rfl⟩
  · show v - p * Int.tdiv 120 120 = v - p
    rw [(by decide : Int.tdiv 120 120 = 1)]; ring
  · show v - p * Int.tdiv (-120) 120 = v + p
    rw [(by decide : Int.tdiv (-120) 120 = -1)]; ring
  · show v - p * Int.tdiv (-150) 120 = v + p
    rw [(by decide : Int.tdiv (-150) 120 = -1)]; ring

/-- C5: `Rotate_Triggered` replaces the rotation keyframe with a single
point at frame 1 whose value is `0.0`, `90.0`, `-90.0` or `180.0` according
to the menu action, leaving every other clip field unchanged; the returned
clip is the one saved. -/
theorem rotate_Triggered_spec (clip : Clip) :
    Rotate_Triggered MENU_ROTATE_NONE clip = { clip with rotation := [mkPoint 1 0] } ∧
    Rotate_Triggered MENU_ROTATE_90_RIGHT clip = { clip with rotation := [mkPoint 1 90] } ∧
    Rotate_Triggered MENU_ROTATE_90_LEFT clip = { clip with rotation := [mkPoint 1 (-90)] } ∧
    Rotate_Triggered MENU_ROTATE_180_FLIP clip = { clip with rotation := [mkPoint 1 180] } := by
  refine ⟨?_, ?_, ?_, ?_⟩ <;>
    simp [Rotate_Triggered, MENU_ROTATE_NONE, MENU_ROTATE_90_RIGHT,
      MENU_ROTATE_90_LEFT, MENU_ROTATE_180_FLIP]

/-- C2: `Fade_Triggered` appends to the existing alpha keyframe points the
fade-in ramp `(1, 1.0) .. (min(k * fps, end * fps), 0.0)` (with `k = 1`
fast, `k = 3` slow), the fade-out ramp
`(max(0, end * fps - k * fps), 0.0) .. (end * fps, 1.0)`, both ramps for the
in-and-out variants (in first, then out), and for `MENU_FADE_NONE` replaces
the alpha keyframe by the single point `(1, 0.0)`. -/
theorem fade_Triggered_spec (fps : ℚ) (clip : Clip) :
    Fade_Triggered MENU_FADE_NONE fps clip = { clip with alpha := [mkPoint 1 0] } ∧
    Fade_Triggered MENU_FADE_IN_FAST fps clip = { clip with alpha := clip.alpha ++
      [mkPoint 1 1, mkPoint (min (1 * fps) (clip.«end» * fps)) 0] } ∧
    Fade_Triggered MENU_FADE_IN_SLOW fps clip = { clip with alpha := clip.alpha ++
      [mkPoint 1 1, mkPoint (min (3 * fps) (clip.«end» * fps)) 0] } ∧
    Fade_Triggered MENU_FADE_OUT_FAST fps clip = { clip with alpha := clip.alpha ++
      [mkPoint (max 0 (clip.«end» * fps - 1 * fps)) 0, mkPoint (clip.«end» * fps) 1] } ∧
    Fade_Triggered MENU_FADE_OUT_SLOW fps clip = { clip with alpha := clip.alpha ++
      [mkPoint (max 0 (clip.«end» * fps - 3 * fps)) 0, mkPoint (clip.«end» * fps) 1] } ∧
    Fade_Triggered MENU_FADE_IN_OUT_FAST fps clip = { clip with alpha := clip.alpha ++
      [mkPoint 1 1, mkPoint (min (1 * fps) (clip.«end» * fps)) 0,
       mkPoint (max 0 (clip.«end» * fps - 1 * fps)) 0, mkPoint (clip.«end» * fps) 1] } ∧
    Fade_Triggered MENU_FADE_IN_OUT_SLOW fps clip = { clip with alpha := clip.alpha ++
      [mkPoint 1 1, mkPoint (min (3 * fps) (clip.«end» * fps)) 0,
       mkPoint (max 0 (clip.«end» * fps - 3 * fps)) 0, mkPoint (clip.«end» * fps) 1] } := by
  refine ⟨?_, ?_, ?_, ?_, ?_, ?_, ?_⟩ <;>
    simp [Fade_Triggered, MENU_FADE_NONE, MENU_FADE_IN_FAST, MENU_FADE_IN_SLOW,
      MENU_FADE_OUT_FAST, MENU_FADE_OUT_SLOW, MENU_FADE_IN_OUT_FAST, MENU_FADE_IN_OUT_SLOW]

/-- C4: with `only_basic_props`, `update_transition_data` saves data whose
brightness keyframe consists of exactly the two points `(1, 1.0)` and
`((end - start) * fps, -1.0)`, the ramp spanning the transition's
duration. -/
theorem update_transition_data_brightness (fps : ℚ) (t : TransitionData) :
    (update_transition_data fps t true).brightness
      = [mkPoint 1 1, mkPoint ((t.«end» - t.start) * fps) (-1)] ∧
    (update_transition_data fps t true).brightness.map (fun q => (q.co.X, q.co.Y))
      = [(1, 1), ((t.«end» - t.start) * fps, -1)] := by
  refine ⟨rfl, by simp [update_transition_data, mkPoint]⟩

/-- The five basic clip properties kept by `update_clip_data`. -/
def basicKeys : List String := ["id", "layer", "position", "start", "end"]

/-- C6: with `only_basic_props`, the clip data saved by `update_clip_data`
contains exactly the five keys id, layer, position, start and end, each
copied from the input clip JSON, and no other property of the input JSON is
written. -/
theorem update_clip_data_basic_props {α : Type} (d r : List (String × α))
    (h : update_clip_data d true = some r) :
    r.map Prod.fst = basicKeys ∧
    (∀ k ∈ basicKeys, dictLookup r k = dictLookup d k) ∧
    (∀ k, k ∉ basicKeys → dictLookup r k = none) := by
  unfold update_clip_data at h
  rw [if_pos rfl] at h
  split at h
  case h_2 => exact absurd h (by simp)
  case h_1 i l p s e hi hl hp hs he =>
    obtain rfl : _ = r := Option.some.inj h
    refine ⟨rfl, ?_, ?_⟩
    · intro k hk
      simp only [basicKeys, List.mem_cons, List.not_mem_nil, or_false] at hk
      rcases hk with rfl | rfl | rfl | rfl | rfl <;>
        simp only [hi, hl, hp, hs, he] <;> simp [dictLookup, List.find?]
    · intro k hk
      simp only [basicKeys, List.mem_cons, List.not_mem_nil, or_false, not_or] at hk
      obtain ⟨h1, h2, h3, h4, h5⟩ := hk
      simp [dictLookup, List.find?, Ne.symm h1, Ne.symm h2, Ne.symm h3,
        Ne.symm h4, Ne.symm h5]

/-- C6 witness: the basic-props theorem applied to a concrete clip dict
carrying an extra `title` property. -/
theorem update_clip_data_basic_props_witness :
    ([("id", (1 : ℚ)), ("layer", 2), ("position", 3), ("start", 4), ("end", 5)]).map Prod.fst
      = basicKeys ∧
    (∀ k ∈ basicKeys,
      dictLookup [("id", (1 : ℚ)), ("layer", 2), ("position", 3), ("start", 4), ("end", 5)] k
        = dictLookup
            [("id", (1 : ℚ)), ("title", 9), ("layer", 2), ("position", 3), ("start", 4), ("end", 5)] k) ∧
    (∀ k, k ∉ basicKeys →
      dictLookup [("id", (1 : ℚ)), ("layer", 2), ("position", 3), ("start", 4), ("end", 5)] k
        = none) :=
  update_clip_data_basic_props
    [("id", (1 : ℚ)), ("title", 9), ("layer", 2), ("position", 3), ("start", 4), ("end", 5)]
    [("id", (1 : ℚ)), ("layer", 2), ("position", 3), ("start", 4), ("end", 5)]
    (by rfl)

/-- The float-and-branch computation of `max_clips_on_row` is exactly the
ceiling of `number_of_clips / number_of_rows`. -/
theorem max_clips_on_row_eq_ceil (n r : ℕ) (hr : 0 < r) :
    max_clips_on_row n r = ⌈(n : ℚ) / (r : ℚ)⌉₊ := by
  have hnn : (0 : ℚ) ≤ (n : ℚ) / (r : ℚ) := by positivity
  unfold max_clips_on_row
  set mc : ℚ := (n : ℚ) / (r : ℚ) with hmc
  by_cases h : ((⌊mc⌋ : ℤ) : ℚ) < mc
  · rw [if_pos h]
    have h1 : ⌈mc⌉ ≤ ⌊mc⌋ + 1 := by
      apply Int.ceil_le.mpr
      push_cast
      exact (Int.lt_floor_add_one mc).le
    have h2 : ⌊mc⌋ < ⌈mc⌉ := by
      exact_mod_cast h.trans_le (Int.le_ceil mc)
    have hceil : ⌈mc⌉ = ⌊mc⌋ + 1 := by omega
    rw [← Int.ceil_toNat, hceil]
  · rw [if_neg h]
    have hfloor : ((⌊mc⌋ : ℤ) : ℚ) = mc := le_antisymm (Int.floor_le mc) (not_lt.mp h)
    have hceil : ⌈mc⌉ = ⌊mc⌋ := by
      conv_lhs => rw [← hfloor]
      exact Int.ceil_intCast ⌊mc⌋
    rw [← Int.ceil_toNat, hceil]

/-- With at least one clip and at least one row, at least one column. -/
theorem max_clips_on_row_pos (n r : ℕ) (hn : 0 < n) (hr : 0 < r) :
    0 < max_clips_on_row n r := by
  rw [max_clips_on_row_eq_ceil n r hr, Nat.ceil_pos]
  positivity

/-- The grid is large enough for every collected clip. -/
theorem le_rows_mul_max_clips_on_row (n r : ℕ) (hr : 0 < r) :
    n ≤ r * max_clips_on_row n r := by
  rw [max_clips_on_row_eq_ceil n r hr]
  have h1 : (n : ℚ) / (r : ℚ) ≤ (⌈(n : ℚ) / (r : ℚ)⌉₊ : ℚ) := Nat.le_ceil _
  rw [div_le_iff₀ (by positivity)] at h1
  have h2 : (n : ℚ) ≤ (r : ℚ) * (⌈(n : ℚ) / (r : ℚ)⌉₊ : ℚ) := by linarith
  exact_mod_cast h2

/-- C9: the triggering clip always lies within half a second of its own
position, so the collected list of `show_all_clips` is non-empty and both
`number_of_rows` and `max_clips_on_row` — the two divisors of the layout
computation — are at least 1: no division by zero occurs. -/
theorem show_all_clips_no_div_by_zero (clip : Clip) (all_clips : List Clip)
    (hmem : clip ∈ all_clips) :
    all_clips.filter (nearby clip.position) ≠ [] ∧
    1 ≤ (all_clips.filter (nearby clip.position)).length ∧
    1 ≤ number_of_rows (all_clips.filter (nearby clip.position)).length ∧
    1 ≤ max_clips_on_row (all_clips.filter (nearby clip.position)).length
        (number_of_rows (all_clips.filter (nearby clip.position)).length) := by
  have hself : nearby clip.position clip = true := by
    simp only [nearby, decide_eq_true_eq]
    constructor <;> linarith
  have hmem2 : clip ∈ all_clips.filter (nearby clip.position) :=
    List.mem_filter.mpr ⟨hmem, hself⟩
  have hne : all_clips.filter (nearby clip.position) ≠ [] :=
    List.ne_nil_of_mem hmem2
  have hlen : 0 < (all_clips.filter (nearby clip.position)).length :=
    List.length_pos.mpr hne
  have hrows : 0 < number_of_rows (all_clips.filter (nearby clip.position)).length :=
    Nat.sqrt_pos.mpr hlen
  exact ⟨hne, hlen, hrows, max_clips_on_row_pos _ _ hlen hrows⟩

/-- C9 witness: the safety theorem applied to a one-clip project. -/
theorem show_all_clips_no_div_by_zero_witness :
    let c : Clip := { id := "c1", layer := 1, position := 3, start := 0, «end» := 10,
                      gravity := .GRAVITY_CENTER, scale := .SCALE_FIT, alpha := [],
                      rotation := [], scale_x := [], scale_y := [],
                      location_x := [], location_y := [] }
    [c].filter (nearby c.position) ≠ [] ∧
    1 ≤ ([c].filter (nearby c.position)).length ∧
    1 ≤ number_of_rows ([c].filter (nearby c.position)).length ∧
    1 ≤ max_clips_on_row ([c].filter (nearby c.position)).length
        (number_of_rows ([c].filter (nearby c.position)).length) :=
  show_all_clips_no_div_by_zero _ _ (List.mem_singleton.mpr rfl)

/-- The row-major double loop of `show_all_clips` visits, as its `i`-th
cell, row `i / cols` and column `i % cols`. -/
theorem gridCells_eq (r c : ℕ) :
    gridCells r c = (List.range (r * c)).map (fun i => (i / c, i % c)) := by
  induction r with
  | zero => simp [gridCells]
  | succ r ih =>
    have hstep : gridCells (r + 1) c
        = gridCells r c ++ (List.range c).map (fun col => (r, col)) := by
      unfold gridCells
      rw [List.range_succ, List.flatMap_append, List.flatMap_singleton]
    rw [hstep, ih, Nat.succ_mul, List.range_add, List.map_append, List.map_map]
    congr 1
    apply List.map_congr_left
    intro col hcol
    have hc : col < c := List.mem_range.mp hcol
    have hc0 : 0 < c := by omega
    have hdiv : (r * c + col) / c = r := by
      rw [Nat.add_comm, Nat.add_mul_div_right _ _ hc0, Nat.div_eq_of_lt hc]
      omega
    have hmod : (r * c + col) % c = col := by
      rw [Nat.add_comm, Nat.add_mul_mod_self_right]
      exact Nat.mod_eq_of_lt hc
    simp [Function.comp, hdiv, hmod]

/-- The collection predicate of `show_all_clips` collects exactly the clips
whose position lies within (inclusive) half a second of the start
position. -/
theorem filter_nearby_eq_abs (pos : ℚ) (l : List Clip) :
    l.filter (nearby pos) = l.filter (fun c => |c.position - pos| ≤ 1/2) := by
  apply List.filter_congr
  intro c _
  simp only [nearby, decide_eq_decide]
  rw [abs_sub_le_iff]
  constructor
  · rintro ⟨h1, h2⟩
    constructor <;> linarith
  · rintro ⟨h1, h2⟩
    constructor <;> linarith

/-- Unfolding of `show_all_clips` into its zip of grid cells with collected
clips. -/
theorem show_all_clips_eq (clip : Clip) (all_clips : List Clip) (stretch : Bool) :
    show_all_clips clip all_clips stretch =
      List.zipWith
        (layoutClip stretch
          (1 / (max_clips_on_row (all_clips.filter (nearby clip.position)).length
              (number_of_rows (all_clips.filter (nearby clip.position)).length) : ℚ))
          (1 / (number_of_rows (all_clips.filter (nearby clip.position)).length : ℚ)))
        (gridCells (number_of_rows (all_clips.filter (nearby clip.position)).length)
          (max_clips_on_row (all_clips.filter (nearby clip.position)).length
            (number_of_rows (all_clips.filter (nearby clip.position)).length)))
        (all_clips.filter (nearby clip.position)) := rfl

/-- C1: `show_all_clips` arranges exactly the clips whose position lies
within 0.5 seconds (inclusive) of the triggering clip's position; for `n`
such clips the grid has `floor (sqrt n)` rows and `ceil (n / rows)`
columns, and the `i`-th collected clip (in filter order) lands in row
`i / cols`, column `i % cols`, with `scale_x = 1 / cols`,
`scale_y = 1 / rows`, `location_x = col / cols`, `location_y = row / rows`,
gravity `GRAVITY_TOP_LEFT` and scale mode `SCALE_STRETCH` when stretching,
`SCALE_FIT` otherwise. -/
theorem show_all_clips_grid (clip : Clip) (all_clips : List Clip) (stretch : Bool)
    (avail : List Clip) (n rows cols : ℕ)
    (hmem : clip ∈ all_clips)
    (havail : avail = all_clips.filter (fun c => |c.position - clip.position| ≤ 1/2))
    (hn : n = avail.length)
    (hrows : rows = number_of_rows n)
    (hcols : cols = max_clips_on_row n rows) :
    rows = ⌊Real.sqrt (n : ℝ)⌋₊ ∧
    cols = ⌈(n : ℚ) / (rows : ℚ)⌉₊ ∧
    (show_all_clips clip all_clips stretch).length = n ∧
    (∀ (i : ℕ) (c : Clip), avail[i]? = some c →
      (show_all_clips clip all_clips stretch)[i]? = some
        { c with
            gravity := Gravity.GRAVITY_TOP_LEFT
            scale := if stretch then ScaleMode.SCALE_STRETCH else ScaleMode.SCALE_FIT
            scale_x := [mkPoint 1 (1 / (cols : ℚ))]
            scale_y := [mkPoint 1 (1 / (rows : ℚ))]
            location_x := [mkPoint 1 ((i % cols : ℕ) / (cols : ℚ))]
            location_y := [mkPoint 1 ((i / cols : ℕ) / (rows : ℚ))] }) := by
  have hA : all_clips.filter (nearby clip.position) = avail :=
    (filter_nearby_eq_abs clip.position all_clips).trans havail.symm
  have hshow : show_all_clips clip all_clips stretch
      = List.zipWith (layoutClip stretch (1 / (cols : ℚ)) (1 / (rows : ℚ)))
          (gridCells rows cols) avail := by
    rw [show_all_clips_eq, hA, ← hn, ← hrows, ← hcols]
  -- positivity facts
  have hself : nearby clip.position clip = true := by
    simp only [nearby, decide_eq_true_eq]
    constructor <;> linarith
  have hmem2 : clip ∈ avail := hA ▸ List.mem_filter.mpr ⟨hmem, hself⟩
  have hnpos : 0 < n := hn ▸ List.length_pos.mpr (List.ne_nil_of_mem hmem2)
  have hrowspos : 0 < rows := hrows ▸ Nat.sqrt_pos.mpr hnpos
  have hcolspos : 0 < cols := hcols ▸ max_clips_on_row_pos n _ hnpos hrowspos
  have hle : n ≤ rows * cols := by
    rw [hcols, hrows]
    exact le_rows_mul_max_clips_on_row n _ (hrows ▸ hrowspos)
  have hglen : (gridCells rows cols).length = rows * cols := by
    rw [gridCells_eq]
    simp
  refine ⟨?_, ?_, ?_, ?_⟩
  · rw [hrows, number_of_rows, Real.nat_floor_real_sqrt_eq_nat_sqrt]
  · rw [hcols, max_clips_on_row_eq_ceil n rows hrowspos]
  · rw [hshow, List.length_zipWith, hglen, hn]
    omega
  · intro i c hic
    have hi : i < n := by
      rw [hn]
      exact (List.getElem?_eq_some.mp hic).1
    have hcell : (gridCells rows cols)[i]? = some (i / cols, i % cols) := by
      rw [gridCells_eq, List.getElem?_map, List.getElem?_range (by omega : i < rows * cols)]
      rfl
    rw [hshow, List.getElem?_zipWith, hcell, hic]
    simp only [layoutClip, mul_one_div]

/-- A concrete clip used by witnesses. -/
def sampleClip : Clip :=
  { id := "c1", layer := 1, position := 3, start := 0, «end» := 10,
    gravity := .GRAVITY_CENTER, scale := .SCALE_FIT, alpha := [], rotation := [],
    scale_x := [], scale_y := [], location_x := [], location_y := [] }

/-- C1 witness: the grid theorem applied to a one-clip project. -/
theorem show_all_clips_grid_witness :
    1 = ⌊Real.sqrt ((1 : ℕ) : ℝ)⌋₊ ∧
    1 = ⌈((1 : ℕ) : ℚ) / ((1 : ℕ) : ℚ)⌉₊ ∧
    (show_all_clips sampleClip [sampleClip] true).length = 1 ∧
    (∀ (i : ℕ) (c : Clip), [sampleClip][i]? = some c →
      (show_all_clips sampleClip [sampleClip] true)[i]? = some
        { c with
            gravity := Gravity.GRAVITY_TOP_LEFT
            scale := if true then ScaleMode.SCALE_STRETCH else ScaleMode.SCALE_FIT
            scale_x := [mkPoint 1 (1 / ((1 : ℕ) : ℚ))]
            scale_y := [mkPoint 1 (1 / ((1 : ℕ) : ℚ))]
            location_x := [mkPoint 1 ((i % 1 : ℕ) / ((1 : ℕ) : ℚ))]
            location_y := [mkPoint 1 ((i / 1 : ℕ) / ((1 : ℕ) : ℚ))] }) :=
  show_all_clips_grid sampleClip [sampleClip] true [sampleClip] 1 1 1
    (List.mem_singleton.mpr rfl) (by norm_num [sampleClip]) rfl rfl
    (by rw [max_clips_on_row_eq_ceil 1 1 one_pos]; norm_num)

/-! ### Reversal of the brightness keyframe (C8) -/

instance : Inhabited KfPoint :=
  ⟨{ co := ⟨0, 0⟩, handle_left := none, handle_right := none,
     interpolation := .BEZIER }⟩

/-- Every brightness point carries its left handle exactly when it carries
its right handle (libopenshot serialises them together). -/
@[reducible] def handlesPaired (pts : List KfPoint) : Prop :=
  ∀ p ∈ pts, p.handle_left.isSome = p.handle_right.isSome

/-- Handle presence is symmetric under reversal of the point list: the
point at index `j` has handles exactly when its mirror point at index
`n - 1 - j` does. -/
@[reducible] def handlesSymmetric (pts : List KfPoint) : Prop :=
  ∀ j : Fin pts.length,
    (pts.get j).handle_left.isSome
      = (pts.get ⟨pts.length - 1 - j.1, by have := j.2; omega⟩).handle_left.isSome

/-- The total counterpart of `reverseCombine` on well-formed data: keeps
every field of `target` except that the `Y` of `co` (and of the handles,
when the source has handles) is taken from `source`. -/
def revPoint (target source : KfPoint) : KfPoint :=
  match source.handle_left, source.handle_right,
      target.handle_left, target.handle_right with
  | some shl, some shr, some thl, some thr =>
      { target with
          co := setCoordY target.co source.co.Y
          handle_left := some (setCoordY thl shl.Y)
          handle_right := some (setCoordY thr shr.Y) }
  | _, _, _, _ => { target with co := setCoordY target.co source.co.Y }

/-- On presence-aligned points the partial loop body succeeds and computes
`revPoint`. -/
theorem reverseCombine_eq_revPoint (target source : KfPoint)
    (hcross : target.handle_left.isSome = source.handle_left.isSome)
    (ht : target.handle_left.isSome = target.handle_right.isSome)
    (hs : source.handle_left.isSome = source.handle_right.isSome) :
    reverseCombine target source = some (revPoint target source) := by
  rcases target with ⟨⟨tx, ty⟩, thl, thr, ti⟩
  rcases source with ⟨⟨sx, sy⟩, shl, shr, si⟩
  rcases thl with _ | ⟨tlx, tly⟩ <;> rcases thr with _ | ⟨trx, try'⟩ <;>
    rcases shl with _ | ⟨slx, sly⟩ <;> rcases shr with _ | ⟨srx, sry⟩ <;>
    simp only [Option.isSome_some, Option.isSome_none, Bool.false_eq_true,
      Bool.true_eq_false] at hcross ht hs <;>
    rfl

/-- Field-level description of `revPoint`. -/
theorem revPoint_fields (t s : KfPoint)
    (hcross : t.handle_left.isSome = s.handle_left.isSome)
    (ht : t.handle_left.isSome = t.handle_right.isSome)
    (hs : s.handle_left.isSome = s.handle_right.isSome) :
    (revPoint t s).co.X = t.co.X ∧
    (revPoint t s).co.Y = s.co.Y ∧
    (revPoint t s).interpolation = t.interpolation ∧
    (revPoint t s).handle_left.map Coord.X = t.handle_left.map Coord.X ∧
    (revPoint t s).handle_right.map Coord.X = t.handle_right.map Coord.X ∧
    (s.handle_left.isSome = true →
      (revPoint t s).handle_left.map Coord.Y = s.handle_left.map Coord.Y ∧
      (revPoint t s).handle_right.map Coord.Y = s.handle_right.map Coord.Y) ∧
    (s.handle_left.isSome = false →
      (revPoint t s).handle_left = t.handle_left ∧
      (revPoint t s).handle_right = t.handle_right) := by
  rcases t with ⟨⟨tx, ty⟩, thl, thr, ti⟩
  rcases s with ⟨⟨sx, sy⟩, shl, shr, si⟩
  rcases thl with _ | ⟨tlx, tly⟩ <;> rcases thr with _ | ⟨trx, try'⟩ <;>
    rcases shl with _ | ⟨slx, sly⟩ <;> rcases shr with _ | ⟨srx, sry⟩ <;>
    simp only [Option.isSome_some, Option.isSome_none, Bool.false_eq_true,
      Bool.true_eq_false] at hcross ht hs <;>
    simp [revPoint, setCoordY]

/-- Applying the loop body to two mirrored `revPoint` results restores the
original point. -/
theorem reverseCombine_revPoint_revPoint (t s : KfPoint)
    (hcross : t.handle_left.isSome = s.handle_left.isSome)
    (ht : t.handle_left.isSome = t.handle_right.isSome)
    (hs : s.handle_left.isSome = s.handle_right.isSome) :
    reverseCombine (revPoint t s) (revPoint s t) = some t := by
  rcases t with ⟨⟨tx, ty⟩, thl, thr, ti⟩
  rcases s with ⟨⟨sx, sy⟩, shl, shr, si⟩
  rcases thl with _ | ⟨tlx, tly⟩ <;> rcases thr with _ | ⟨trx, try'⟩ <;>
    rcases shl with _ | ⟨slx, sly⟩ <;> rcases shr with _ | ⟨srx, sry⟩ <;>
    simp only [Option.isSome_some, Option.isSome_none, Bool.false_eq_true,
      Bool.true_eq_false] at hcross ht hs <;>
    rfl

/-- `mapM` over `Option` of an everywhere-defined function is the `some` of
the corresponding `map`. -/
theorem mapM_option_eq_map {α β : Type} (l : List α) (f : α → Option β)
    (g : α → β) (h : ∀ x ∈ l, f x = some (g x)) :
    l.mapM f = some (l.map g) := by
  induction l with
  | nil => rfl
  | cons a l ih =>
    rw [List.mapM_cons, h a (List.mem_cons_self a l),
      ih (fun x hx => h x (List.mem_cons_of_mem a hx))]
    rfl

/-- `getD` at an in-range index is `get`. -/
theorem getD_eq_get {α : Type} [Inhabited α] (l : List α) (m : ℕ)
    (hm : m < l.length) : l.getD m default = l.get ⟨m, hm⟩ := by
  rw [List.getD_eq_getElem?_getD, List.getElem?_eq_getElem hm]
  rfl

/-- Reading every index of a list back in order gives the list. -/
theorem map_getD_range {α : Type} [Inhabited α] (l : List α) :
    (List.range l.length).map (fun j => l.getD j default) = l := by
  apply List.ext_getElem?
  intro i
  rw [List.getElem?_map]
  by_cases hi : i < l.length
  · rw [List.getElem?_range hi, List.getElem?_eq_getElem hi]
    show some (l.getD i default) = some l[i]
    rw [List.getD_eq_getElem?_getD, List.getElem?_eq_getElem hi]
    rfl
  · rw [List.getElem?_eq_none (by simpa using hi),
      List.getElem?_eq_none (by simpa using hi)]
    rfl

/-- The presence hypotheses of the point lemmas, extracted at a mirrored
index pair. -/
theorem brightness_presence (pts : List KfPoint) (hpair : handlesPaired pts)
    (hsym : handlesSymmetric pts) (j : ℕ) (hjn : j < pts.length) :
    ((pts.getD j default).handle_left.isSome
        = (pts.getD (pts.length - 1 - j) default).handle_left.isSome) ∧
    ((pts.getD j default).handle_left.isSome
        = (pts.getD j default).handle_right.isSome) ∧
    ((pts.getD (pts.length - 1 - j) default).handle_left.isSome
        = (pts.getD (pts.length - 1 - j) default).handle_right.isSome) := by
  have hkn : pts.length - 1 - j < pts.length := by omega
  rw [getD_eq_get pts j hjn, getD_eq_get pts _ hkn]
  refine ⟨hsym ⟨j, hjn⟩, ?_, ?_⟩
  · exact hpair _ (List.get_mem pts j hjn)
  · exact hpair _ (List.get_mem pts _ hkn)

/-- The loop of `Reverse_Transition_Triggered` succeeds on presence-aligned
data and writes, at index `j`, `revPoint` of the mirrored pair. -/
theorem reverse_brightness_eq (pts : List KfPoint)
    (hpair : handlesPaired pts) (hsym : handlesSymmetric pts) :
    reverse_brightness pts
      = some ((List.range pts.length).map (fun j =>
          revPoint (pts.getD j default)
            (pts.getD (pts.length - 1 - j) default))) := by
  unfold reverse_brightness
  apply mapM_option_eq_map
  intro j hj
  have hjn : j < pts.length := List.mem_range.mp hj
  have hkn : pts.length - 1 - j < pts.length := by omega
  have h1 : pts[j]? = some (pts.getD j default) := by
    rw [List.getElem?_eq_getElem hjn, getD_eq_get pts j hjn]
    rfl
  have h2 : pts[pts.length - 1 - j]?
      = some (pts.getD (pts.length - 1 - j) default) := by
    rw [List.getElem?_eq_getElem hkn, getD_eq_get pts _ hkn]
    rfl
  rw [h1, h2]
  obtain ⟨hc, hp1, hp2⟩ := brightness_presence pts hpair hsym j hjn
  exact reverseCombine_eq_revPoint _ _ hc hp1 hp2

/-- C8: `Reverse_Transition_Triggered` maps the transition's brightness
points to a copy in which the sequence of `Y` values (of `co`, and of
`handle_left` / `handle_right` when `handle_left` is present) is reversed
while every `X` coordinate and every other field is unchanged; applying the
operation twice yields the original transition data — the operation is an
involution on the brightness keyframe.  Handle presence is assumed paired
and symmetric under reversal, otherwise the Python raises a `KeyError`
before saving anything. -/
theorem reverse_transition_involution (fps : ℚ) (tran : TransitionData)
    (hpair : handlesPaired tran.brightness)
    (hsym : handlesSymmetric tran.brightness) :
    ∃ res, Reverse_Transition_Triggered fps tran = some res ∧
      res.id = tran.id ∧ res.layer = tran.layer ∧
      res.position = tran.position ∧ res.start = tran.start ∧
      res.«end» = tran.«end» ∧
      res.brightness.length = tran.brightness.length ∧
      (∀ (j : ℕ) (target source : KfPoint),
        tran.brightness[j]? = some target →
        tran.brightness[tran.brightness.length - 1 - j]? = some source →
        ∃ q, res.brightness[j]? = some q ∧
          q.co.X = target.co.X ∧ q.co.Y = source.co.Y ∧
          q.interpolation = target.interpolation ∧
          q.handle_left.map Coord.X = target.handle_left.map Coord.X ∧
          q.handle_right.map Coord.X = target.handle_right.map Coord.X ∧
          (source.handle_left.isSome = true →
            q.handle_left.map Coord.Y = source.handle_left.map Coord.Y ∧
            q.handle_right.map Coord.Y = source.handle_right.map Coord.Y) ∧
          (source.handle_left.isSome = false →
            q.handle_left = target.handle_left ∧
            q.handle_right = target.handle_right)) ∧
      Reverse_Transition_Triggered fps res = some tran := by
  have hrev := reverse_brightness_eq tran.brightness hpair hsym
  refine ⟨{ tran with brightness :=
      (List.range tran.brightness.length).map (fun j =>
        revPoint (tran.brightness.getD j default)
          (tran.brightness.getD (tran.brightness.length - 1 - j) default)) },
    ?_, rfl, rfl, rfl, rfl, rfl, by simp, ?_, ?_⟩
  · unfold Reverse_Transition_Triggered
    rw [hrev]
    rfl
  · intro j target source hjt hjs
    obtain ⟨hjn, hjeq⟩ := List.getElem?_eq_some.mp hjt
    have hkn : tran.brightness.length - 1 - j < tran.brightness.length := by
      omega
    obtain ⟨_, hkeq⟩ := List.getElem?_eq_some.mp hjs
    have htgt : tran.brightness.getD j default = target := by
      rw [getD_eq_get _ j hjn]
      exact hjeq
    have hsrc : tran.brightness.getD (tran.brightness.length - 1 - j) default
        = source := by
      rw [getD_eq_get _ _ hkn]
      exact hkeq
    refine ⟨revPoint target source, ?_, ?_⟩
    · show ((List.range tran.brightness.length).map _)[j]? = _
      rw [List.getElem?_map, List.getElem?_range hjn]
      show some (revPoint (tran.brightness.getD j default)
          (tran.brightness.getD (tran.brightness.length - 1 - j) default))
        = some (revPoint target source)
      rw [htgt, hsrc]
    · obtain ⟨hc, hp1, hp2⟩ := brightness_presence tran.brightness hpair hsym j hjn
      rw [htgt, hsrc] at hc
      rw [htgt] at hp1
      rw [hsrc] at hp2
      exact revPoint_fields target source hc hp1 hp2
  · unfold Reverse_Transition_Triggered
    have hinner : reverse_brightness
        ((List.range tran.brightness.length).map (fun j =>
          revPoint (tran.brightness.getD j default)
            (tran.brightness.getD (tran.brightness.length - 1 - j) default)))
        = some tran.brightness := by
      unfold reverse_brightness
      simp only [List.length_map, List.length_range]
      rw [show some tran.brightness
          = some ((List.range tran.brightness.length).map
              (fun j => tran.brightness.getD j default))
        from by rw [map_getD_range]]
      apply mapM_option_eq_map
      intro j hj
      have hjn : j < tran.brightness.length := List.mem_range.mp hj
      have hkn : tran.brightness.length - 1 - j < tran.brightness.length := by
        omega
      have hmirror : tran.brightness.length - 1 -
          (tran.brightness.length - 1 - j) = j := by omega
      rw [List.getElem?_map, List.getElem?_range hjn,
        List.getElem?_map, List.getElem?_range hkn]
      show reverseCombine
          (revPoint (tran.brightness.getD j default)
            (tran.brightness.getD (tran.brightness.length - 1 - j) default))
          (revPoint (tran.brightness.getD (tran.brightness.length - 1 - j) default)
            (tran.brightness.getD (tran.brightness.length - 1 -
              (tran.brightness.length - 1 - j)) default))
          = some (tran.brightness.getD j default)
      rw [hmirror]
      obtain ⟨hc, hp1, hp2⟩ := brightness_presence tran.brightness hpair hsym j hjn
      exact reverseCombine_revPoint_revPoint _ _ hc hp1 hp2
    rw [hinner]
    rfl

/-- A concrete transition used by the reversal witness. -/
def sampleTransition : TransitionData :=
  { id := "t1", layer := 1, position := 0, start := 0, «end» := 10,
    brightness := [mkPoint 1 1, mkPoint 240 (-1)] }

/-- C8 witness: the involution theorem applied to a concrete two-point
brightness ramp. -/
theorem reverse_transition_involution_witness :
    handlesPaired sampleTransition.brightness ∧
    handlesSymmetric sampleTransition.brightness ∧
    (∃ res, Reverse_Transition_Triggered 24 sampleTransition = some res ∧
      res.id = sampleTransition.id ∧ res.layer = sampleTransition.layer ∧
      res.position = sampleTransition.position ∧
      res.start = sampleTransition.start ∧
      res.«end» = sampleTransition.«end» ∧
      res.brightness.length = sampleTransition.brightness.length ∧
      (∀ (j : ℕ) (target source : KfPoint),
        sampleTransition.brightness[j]? = some target →
        sampleTransition.brightness[sampleTransition.brightness.length - 1 - j]?
          = some source →
        ∃ q, res.brightness[j]? = some q ∧
          q.co.X = target.co.X ∧ q.co.Y = source.co.Y ∧
          q.interpolation = target.interpolation ∧
          q.handle_left.map Coord.X = target.handle_left.map Coord.X ∧
          q.handle_right.map Coord.X = target.handle_right.map Coord.X ∧
          (source.handle_left.isSome = true →
            q.handle_left.map Coord.Y = source.handle_left.map Coord.Y ∧
            q.handle_right.map Coord.Y = source.handle_right.map Coord.Y) ∧
          (source.handle_left.isSome = false →
            q.handle_left = target.handle_left ∧
            q.handle_right = target.handle_right)) ∧
      Reverse_Transition_Triggered 24 res = some sampleTransition) :=
  ⟨by decide, by decide,
    reverse_transition_involution 24 sampleTransition (by decide) (by decide)⟩

end Timeline
